import Mathlib

/-!
Verification of the Animal Extinction Timeline repository.

The repository is a client-side timeline application with three parallel
implementations (a class-based TypeScript module system, a React component
tree, and a stage-3 vanilla script).  This file gives a shallow embedding of
the data-bearing parts of the code — JSON validation, sorting, filtering,
category counts, theme state, modal state, renderer precedence and keyboard
activation — and proves or refutes the frozen claims about them.

JSON numbers are modelled as rationals: `response.json()` only ever yields
finite decimal numbers, and the code's `Number.isFinite` check is the only
numeric constraint applied.  Strings are Lean `String`s; `trim` is
`String.trim`.
-/

/-- A parsed JSON value, the result of `response.json()`.  JSON has no
`undefined`, so absence of an object key is the only way a field can be
missing. -/
inductive JValue where
  | null : JValue
  | bool (b : Bool) : JValue
  | num (q : ℚ) : JValue
  | str (s : String) : JValue
  | arr (elements : List JValue) : JValue
  | obj (fields : List (String × JValue)) : JValue

/-- The closed category enumeration of the data model
(`type AnimalCategory = 'Mammals' | 'Birds' | 'Reptiles'`). -/
inductive AnimalCategory where
  | Mammals : AnimalCategory
  | Birds : AnimalCategory
  | Reptiles : AnimalCategory
deriving DecidableEq, Repr

/-- Filter categories (`type FilterCategory = AnimalCategory | 'All'`). -/
inductive FilterCategory where
  | All : FilterCategory
  | Mammals : FilterCategory
  | Birds : FilterCategory
  | Reptiles : FilterCategory
deriving DecidableEq, Repr

/-- The string-union coercion from event categories to filter categories:
in the source both are string literal types and an event's category is
compared to the active filter with `===`. -/
def AnimalCategory.toFilter : AnimalCategory → FilterCategory
  | .Mammals => .Mammals
  | .Birds => .Birds
  | .Reptiles => .Reptiles

/-- The `ExtinctionEvent` interface of `types/index.ts`: eight fields, all
present.  `id` and `year` are JSON numbers (rationals here), the six text
fields are strings. -/
structure ExtinctionEvent where
  id : ℚ
  year : ℚ
  title : String
  description : String
  imageURL : String
  category : AnimalCategory
  location : String
  cause : String
deriving DecidableEq, Repr

/-- First-match association lookup, the model of reading `object[key]` on a
plain parsed-JSON object. -/
def jlookup (fields : List (String × JValue)) (key : String) : Option JValue :=
  (fields.find? (fun p => p.1 = key)).map (fun p => p.2)

/-- `String.prototype.trim()`: strip leading and trailing whitespace.
Defined over the character list so that it evaluates by kernel reduction. -/
def jsTrim (s : String) : String :=
  ⟨((s.data.dropWhile Char.isWhitespace).reverse.dropWhile Char.isWhitespace).reverse⟩

namespace DataFetcher

/-- Which field-level check of `DataFetcher` failed: `validateNumber`
(`must be a valid number`), `validateString` (`must be a non-empty string`)
or `validateCategory` (`must be one of: Mammals, Birds, Reptiles`). -/
inductive FieldFailure where
  | notANumber : FieldFailure
  | notANonEmptyString : FieldFailure
  | notACategory : FieldFailure
deriving DecidableEq, Repr

/-- The errors thrown by `DataFetcher.validateResponse` / `validateEvent`,
modelled structurally: each constructor carries exactly the data that the
source interpolates into the thrown `Error` message. -/
inductive VError where
  | responseNotObject : VError
  | missingEventsArray : VError
  | eventNotObject (index : Nat) : VError
  | missingField (index : Nat) (field : String) : VError
  | badField (index : Nat) (field : String) (failure : FieldFailure) : VError
deriving DecidableEq, Repr

/-- `isObject`: `typeof value === 'object' && value !== null && !Array.isArray(value)`. -/
def isObject : JValue → Bool
  | .obj _ => true
  | _ => false

/-- The `requiredFields` list of `DataFetcher.validateEvent`, in source
order. -/
def requiredFields : List String :=
  ["id", "year", "title", "description", "imageURL", "category", "location", "cause"]

/-- The presence check of the `validateEvent` field loop:
`!(field in event) || event[field] === null || event[field] === undefined`.
A parsed-JSON object never holds `undefined`, so absence or `null` are the
two failing cases. -/
def fieldMissing (fields : List (String × JValue)) (field : String) : Bool :=
  match jlookup fields field with
  | none => true
  | some .null => true
  | some _ => false

/-- `DataFetcher.validateNumber`: accepts exactly JSON numbers (all parsed
JSON numbers are finite, so the `Number.isFinite` guard cannot fire on
parsed input). -/
def validateNumber (value : JValue) (index : Nat) (field : String) : Except VError ℚ :=
  match value with
  | .num q => .ok q
  | _ => .error (.badField index field .notANumber)

/-- `DataFetcher.validateString`: requires a string whose trim is non-empty
and returns the trimmed string. -/
def validateString (value : JValue) (index : Nat) (field : String) : Except VError String :=
  match value with
  | .str s => if jsTrim s = "" then .error (.badField index field .notANonEmptyString) else .ok (jsTrim s)
  | _ => .error (.badField index field .notANonEmptyString)

/-- `DataFetcher.validateCategory`: requires one of the three literal
category strings. -/
def validateCategory (value : JValue) (index : Nat) (field : String) : Except VError AnimalCategory :=
  match value with
  | .str s =>
    if s = "Mammals" then .ok .Mammals
    else if s = "Birds" then .ok .Birds
    else if s = "Reptiles" then .ok .Reptiles
    else .error (.badField index field .notACategory)
  | _ => .error (.badField index field .notACategory)

/-- `DataFetcher.validateEvent`: rejects non-objects, then runs the
required-field presence loop (first missing field wins), then builds the
validated record, validating the fields in the source's record-literal
order `id, year, title, description, imageURL, category, location, cause`
(the first failing validator's error is thrown). -/
def validateEvent (value : JValue) (index : Nat) : Except VError ExtinctionEvent :=
  match value with
  | .obj fields =>
    match requiredFields.find? (fun f => fieldMissing fields f) with
    | some f => .error (.missingField index f)
    | none => do
      let id ← validateNumber ((jlookup fields ("id")).getD .null) index ("id")
      let year ← validateNumber ((jlookup fields ("year")).getD .null) index ("year")
      let title ← validateString ((jlookup fields ("title")).getD .null) index ("title")
      let description ← validateString ((jlookup fields ("description")).getD .null) index ("description")
      let imageURL ← validateString ((jlookup fields ("imageURL")).getD .null) index ("imageURL")
      let category ← validateCategory ((jlookup fields ("category")).getD .null) index ("category")
      let location ← validateString ((jlookup fields ("location")).getD .null) index ("location")
      let cause ← validateString ((jlookup fields ("cause")).getD .null) index ("cause")
      .ok { id := id, year := year, title := title, description := description,
            imageURL := imageURL, category := category, location := location, cause := cause }
  | _ => .error (.eventNotObject index)

/-- The `data.events.map((event, index) => this.validateEvent(event, index))`
traversal: a thrown validation error aborts the whole map, so the first
failing element's error is the result. -/
def validateEventsFrom (elements : List JValue) (index : Nat) : Except VError (List ExtinctionEvent) :=
  match elements with
  | [] => .ok []
  | v :: rest => do
    let e ← validateEvent v index
    let es ← validateEventsFrom rest (index + 1)
    .ok (e :: es)

/-- `DataFetcher.validateResponse`: the payload must be a plain object with
an array field named `events`; every element is then validated in order.
(The `{ events }` wrapper of the source's return value is elided: the
validated list itself is returned.) -/
def validateResponse (data : JValue) : Except VError (List ExtinctionEvent) :=
  match data with
  | .obj fields =>
    match jlookup fields ("events") with
    | some (.arr elements) => validateEventsFrom elements 0
    | _ => .error .missingEventsArray
  | _ => .error .responseNotObject

/-- The comparator `(a, b) => a.year - b.year` as the Boolean order its sign
induces: `a` may precede `b` iff `a.year ≤ b.year`. -/
def yearLE (a b : ExtinctionEvent) : Bool :=
  decide (a.year ≤ b.year)

/-- `DataFetcher.sortEventsByYear`:
`[...events].sort((a, b) => a.year - b.year)`.  ECMAScript's
`Array.prototype.sort` is specified to be stable, so any stable sort by the
comparator is a faithful model; we use `List.mergeSort`. -/
def sortEventsByYear (events : List ExtinctionEvent) : List ExtinctionEvent :=
  events.mergeSort yearLE

/-- The success path of `DataFetcher.fetchEvents` after the HTTP transport
succeeded and the body parsed as JSON `data`: validate, then sort. -/
def fetchEvents (data : JValue) : Except VError (List ExtinctionEvent) := do
  let validated ← validateResponse data
  .ok (sortEventsByYear validated)

end DataFetcher

namespace UseExtinctionEvents

/-- Test for `typeof v === 'number'` on a looked-up object property (an
absent key reads as `undefined`, whose `typeof` is not `'number'`). -/
def isNumberValue (v : Option JValue) : Bool :=
  match v with
  | some (.num _) => true
  | _ => false

/-- Test for `typeof v === 'string'` on a looked-up object property. -/
def isStringValue (v : Option JValue) : Bool :=
  match v with
  | some (.str _) => true
  | _ => false

/-- The React hook's `isValidEvent` type guard: eight `typeof` checks plus
the category-enumeration membership check.  Unlike `DataFetcher`, it never
trims and accepts empty strings, and its caller reports only the index of
an invalid element. -/
def isValidEvent (value : JValue) : Bool :=
  match value with
  | .obj fields =>
    isNumberValue (jlookup fields ("id")) &&
    isNumberValue (jlookup fields ("year")) &&
    isStringValue (jlookup fields ("title")) &&
    isStringValue (jlookup fields ("description")) &&
    isStringValue (jlookup fields ("imageURL")) &&
    isStringValue (jlookup fields ("category")) &&
    isStringValue (jlookup fields ("location")) &&
    isStringValue (jlookup fields ("cause")) &&
    (match jlookup fields ("category") with
     | some (.str s) => s = "Mammals" || s = "Birds" || s = "Reptiles"
     | _ => false)
  | _ => false

/-- The hook's `events.map((event, index) => { if (!isValidEvent(event))
throw ...; return event; })`: the first invalid element aborts the whole
traversal with the thrown message, which carries only the index. -/
def validateEventsFrom (elements : List JValue) (index : Nat) : Except String (List JValue) :=
  match elements with
  | [] => .ok []
  | v :: rest =>
    if isValidEvent v then do
      let es ← validateEventsFrom rest (index + 1)
      .ok (v :: es)
    else .error ("Invalid event at index " ++ toString index)

/-- The hook's `validateEvents`: requires an array, then validates each
element in order. -/
def validateEvents (events : JValue) : Except String (List JValue) :=
  match events with
  | .arr elements => validateEventsFrom elements 0
  | _ => .error ("Events data is not an array")

/-- The hook's `sortEventsByYear`, identical to the `DataFetcher` one. -/
def sortEventsByYear (events : List ExtinctionEvent) : List ExtinctionEvent :=
  events.mergeSort DataFetcher.yearLE

/-- The hook's `filteredEvents` memo: the full list when the filter is
`'All'`, otherwise the category-matching subsequence. -/
def filteredEvents (activeFilter : FilterCategory) (events : List ExtinctionEvent) : List ExtinctionEvent :=
  if activeFilter = FilterCategory.All then events
  else events.filter (fun e => decide (e.category.toFilter = activeFilter))

end UseExtinctionEvents

namespace FilterComponent

/-- `FilterComponent.getFilteredEvents`: `this.allEvents` unchanged for the
`'All'` filter, otherwise `allEvents.filter(e => e.category === this.currentFilter)`. -/
def getFilteredEvents (currentFilter : FilterCategory) (allEvents : List ExtinctionEvent) : List ExtinctionEvent :=
  if currentFilter = FilterCategory.All then allEvents
  else allEvents.filter (fun e => decide (e.category.toFilter = currentFilter))

/-- `FilterComponent.getCategoryCounts`: a record seeded with
`All ↦ allEvents.length` and `0` for the three animal categories, then one
increment per event at the event's category key.  (`App.tsx`'s
`eventCounts` memo is this same computation verbatim.) -/
def getCategoryCounts (allEvents : List ExtinctionEvent) : FilterCategory → Nat :=
  allEvents.foldl
    (fun counts e => fun c => if c = e.category.toFilter then counts c + 1 else counts c)
    (fun c =>
      match c with
      | .All => allEvents.length
      | _ => 0)

end FilterComponent

/-- The two themes (`type Theme = 'light' | 'dark'`). -/
inductive Theme where
  | light : Theme
  | dark : Theme
deriving DecidableEq, Repr

namespace ThemeComponent

/-- The literal string persisted for a theme. -/
def themeName : Theme → String
  | .light => "light"
  | .dark => "dark"

/-- The `themeConfig` icons. -/
def themeIcon : Theme → String
  | .light => "🌙"
  | .dark => "☀️"

/-- The `themeConfig` toggle-button labels. -/
def themeLabel : Theme → String
  | .light => "Switch to dark theme"
  | .dark => "Switch to light theme"

/-- The `meta[name=theme-color]` content written by `updateMetaThemeColor`. -/
def metaColor : Theme → String
  | .dark => "#1a1a1a"
  | .light => "#f5f5f5"

/-- The observable state of a `ThemeComponent` instance together with the
browser state it mutates: the current theme, the `dark-theme` class on
`document.body`, the toggle button's icon and ARIA label, the mobile
theme-color hint, the persisted `localStorage` value, the number of
`localStorage.setItem` calls performed, and the list of `onThemeChange`
notifications fired. -/
structure State where
  currentTheme : Theme
  bodyDarkClass : Bool
  toggleIcon : String
  toggleLabel : String
  metaThemeColor : String
  storedTheme : Option String
  saveCount : Nat
  notified : List Theme
deriving DecidableEq, Repr

/-- `applyTheme`: add the `dark-theme` body class for dark, remove it for
light, and update the meta theme-color. -/
def applyTheme (theme : Theme) (s : State) : State :=
  match theme with
  | .dark => { s with bodyDarkClass := true, metaThemeColor := metaColor theme }
  | .light => { s with bodyDarkClass := false, metaThemeColor := metaColor theme }

/-- `updateToggleButton`: icon, `aria-label` and `title` follow the new
theme (the transient scale animation is presentation only and not part of
the state). -/
def updateToggleButton (theme : Theme) (s : State) : State :=
  { s with toggleIcon := themeIcon theme, toggleLabel := themeLabel theme }

/-- `saveThemePreference`: one `localStorage.setItem` write. -/
def saveThemePreference (theme : Theme) (s : State) : State :=
  { s with storedTheme := some (themeName theme), saveCount := s.saveCount + 1 }

/-- `ThemeComponent.setTheme(theme, saveToStorage)`: returns immediately —
performing no side effect at all — when the requested theme equals the
current one; otherwise updates the theme, applies it to the document,
updates the toggle button, optionally persists, and notifies listeners. -/
def setTheme (theme : Theme) (saveToStorage : Bool) (s : State) : State :=
  if s.currentTheme = theme then s
  else
    let s1 := { s with currentTheme := theme }
    let s2 := applyTheme theme s1
    let s3 := updateToggleButton theme s2
    let s4 := if saveToStorage then saveThemePreference theme s3 else s3
    { s4 with notified := s4.notified ++ [theme] }

/-- `ThemeComponent.toggleTheme`: `setTheme` to the opposite of the current
theme, with the default `saveToStorage = true`. -/
def toggleTheme (s : State) : State :=
  let newTheme : Theme :=
    match s.currentTheme with
    | .light => Theme.dark
    | .dark => Theme.light
  setTheme newTheme true s

/-- `loadThemePreference`: the raw `localStorage.getItem` result filtered
through `isValidTheme` — only the literal strings `light` and `dark` count,
anything else (or a storage read failure, which the source catches and
turns into `null`) is no preference. -/
def loadThemePreference (stored : Option String) : Option Theme :=
  match stored with
  | some s =>
    if s = "light" then some Theme.light
    else if s = "dark" then some Theme.dark
    else none
  | none => none

/-- `detectSystemTheme`: `window.matchMedia('(prefers-color-scheme: dark)')`
when available (`some matches`), else light.  `prefersDark = none` models a
platform without `matchMedia`. -/
def detectSystemTheme (prefersDark : Option Bool) : Theme :=
  match prefersDark with
  | some true => Theme.dark
  | some false => Theme.light
  | none => Theme.light

/-- The theme chosen by `ThemeComponent.initializeTheme`:
`savedTheme || this.detectSystemTheme()` (both theme strings are truthy, so
`||` is exactly `Option.getD`); the result is then applied with
`setTheme(initialTheme, false)`. -/
def initializeTheme (stored : Option String) (prefersDark : Option Bool) : Theme :=
  (loadThemePreference stored).getD (detectSystemTheme prefersDark)

end ThemeComponent

namespace Stage3

/-- The stage-3 script's theme state: the `dark-theme` body class is the
state flag, plus the toggle control's text and label and the persisted
`localStorage` value under the key `theme`. -/
structure ThemeState where
  bodyDarkClass : Bool
  toggleIcon : String
  toggleLabel : String
  storedTheme : Option String
deriving DecidableEq, Repr

/-- The stage-3 `toggleTheme`: flips the `dark-theme` class, reads the
resulting state back from the DOM, updates the control and persists the
new value on every call. -/
def toggleTheme (s : ThemeState) : ThemeState :=
  let isDark := !s.bodyDarkClass
  { bodyDarkClass := isDark,
    toggleIcon := if isDark then "☀️" else "🌙",
    toggleLabel := if isDark then "Switch to light theme" else "Switch to dark theme",
    storedTheme := some (if isDark then "dark" else "light") }

/-- The theme chosen by the stage-3 `initializeTheme`: dark exactly when the
persisted value is the literal string `dark`, otherwise light.  The platform
color-scheme preference is never consulted. -/
def initializeTheme (savedTheme : Option String) : Theme :=
  match savedTheme with
  | some s => if s = "dark" then Theme.dark else Theme.light
  | none => Theme.light

end Stage3

namespace ModalComponent

/-- The observable state of a `ModalComponent`: the `isOpen` flag, the
`currentEvent` selection, the `hidden` class on the modal element and the
page-scroll lock (`document.body.style.overflow === 'hidden'`). -/
structure State where
  isOpen : Bool
  currentEvent : Option ExtinctionEvent
  modalHidden : Bool
  bodyScrollLocked : Bool
deriving DecidableEq, Repr

/-- The state at construction: closed, nothing selected, modal hidden. -/
def initialState : State :=
  { isOpen := false, currentEvent := none, modalHidden := true, bodyScrollLocked := false }

/-- `ModalComponent.open(event)` (named `openModal` here because `open` is a
Lean keyword): unconditionally selects the event, renders its content,
shows the modal, locks page scroll and sets `isOpen`. -/
def openModal (e : ExtinctionEvent) (s : State) : State :=
  { s with currentEvent := some e, modalHidden := false, bodyScrollLocked := true, isOpen := true }

/-- `ModalComponent.close()`: a no-op when already closed
(`if (!this.isOpen) return`), otherwise hides the modal, releases the
scroll lock, clears `isOpen` and the selection. -/
def close (s : State) : State :=
  if s.isOpen = false then s
  else { s with modalHidden := true, bodyScrollLocked := false, isOpen := false, currentEvent := none }

/-- The modal's public operations, for quantifying over call sequences. -/
inductive Op where
  | opOpen (e : ExtinctionEvent) : Op
  | opClose : Op

/-- Apply one public operation. -/
def applyOp (op : Op) (s : State) : State :=
  match op with
  | .opOpen e => openModal e s
  | .opClose => close s

/-- Run a sequence of open/close calls from a starting state. -/
def run (ops : List Op) (s : State) : State :=
  ops.foldl (fun s op => applyOp op s) s

/-- The coupling invariant of the claim: the modal reports closed exactly
when no event is selected. -/
def invariant (s : State) : Prop :=
  s.isOpen = false ↔ s.currentEvent = none

end ModalComponent

namespace UseModal

/-- The React `useModal` state: `isOpen`, `selectedEvent` and the body
scroll lock. -/
structure State where
  isOpen : Bool
  selectedEvent : Option ExtinctionEvent
  bodyScrollLocked : Bool
deriving DecidableEq, Repr

/-- `useModal().openModal(event)`: sets the selection and `isOpen` together
and locks scroll. -/
def openModal (e : ExtinctionEvent) (_s : State) : State :=
  { isOpen := true, selectedEvent := some e, bodyScrollLocked := true }

/-- `useModal().closeModal()`: clears both parts of the state together and
releases the scroll lock, unconditionally. -/
def closeModal (_s : State) : State :=
  { isOpen := false, selectedEvent := none, bodyScrollLocked := false }

end UseModal

/-- The four mutually exclusive renderings of the React `Timeline`
component: loading spinner, error panel, empty-state message, or the list
of event markers. -/
inductive TimelineView where
  | loadingSpinner (message : String) : TimelineView
  | errorDisplay (message : String) : TimelineView
  | noEvents : TimelineView
  | eventMarkers (events : List ExtinctionEvent) : TimelineView
deriving DecidableEq, Repr

/-- The React `Timeline` component as a function of its props.  The guards
mirror the source: `if (isLoading)`, then `if (error)` — JavaScript string
truthiness, so the empty string does not count as an error — then
`if (events.length === 0)`, else the markers. -/
def Timeline (events : List ExtinctionEvent) (isLoading : Bool) (error : Option String) : TimelineView :=
  if isLoading then TimelineView.loadingSpinner ("Loading extinction timeline...")
  else
    match error with
    | some msg =>
      if msg ≠ "" then TimelineView.errorDisplay msg
      else if events.length = 0 then TimelineView.noEvents
      else TimelineView.eventMarkers events
    | none =>
      if events.length = 0 then TimelineView.noEvents
      else TimelineView.eventMarkers events

/-- A DOM keyboard event, reduced to the `key` property the code reads. -/
structure KeyboardEvent where
  key : String
deriving DecidableEq, Repr

/-- A DOM mouse event (opaque for our purposes). -/
structure MouseEvent where
  button : Nat
deriving DecidableEq, Repr

namespace EventMarker

/-- The dynamically-typed value a handler passes to the `onClick` prop.
The declared type of the prop is `(event: ExtinctionEvent) => void`, but
JavaScript lets a handler pass any value. -/
inductive OnClickArg where
  | extinctionEvent (e : ExtinctionEvent) : OnClickArg
  | keyboardEvent (k : KeyboardEvent) : OnClickArg
  | mouseEvent (m : MouseEvent) : OnClickArg
deriving DecidableEq, Repr

/-- `EventMarker.handleClick`: it takes no parameter, so `event` inside the
body is the destructured `event` prop and the callback receives the entry's
`ExtinctionEvent`. -/
def handleClick (eventProp : ExtinctionEvent) : OnClickArg :=
  OnClickArg.extinctionEvent eventProp

/-- `EventMarker.handleKeyDown`: its parameter is also named `event`,
shadowing the `event` prop, so on Enter or Space the source's
`onClick(event)` passes the shadowing `React.KeyboardEvent` — not the
entry's data.  Returns the argument handed to `onClick`, or `none` when the
key does not activate. -/
def handleKeyDown (_eventProp : ExtinctionEvent) (event : KeyboardEvent) : Option OnClickArg :=
  if event.key = "Enter" || event.key = " " then some (OnClickArg.keyboardEvent event)
  else none

/-- `EventMarker.handleLearnMoreClick`: the same shadowing — `onClick`
receives the `React.MouseEvent`, not the entry's data. -/
def handleLearnMoreClick (_eventProp : ExtinctionEvent) (event : MouseEvent) : OnClickArg :=
  OnClickArg.mouseEvent event

end EventMarker

/-! ## Sample data for witnesses and counterexamples -/

/-- A payload element with the given id, year, title and category string;
the remaining required text fields are fixed non-empty strings. -/
def mkEventJ (id year : ℚ) (title category : String) : JValue :=
  JValue.obj
    [ ("id", JValue.num id),
      ("year", JValue.num year),
      ("title", JValue.str title),
      ("description", JValue.str ("A documented extinction event.")),
      ("imageURL", JValue.str ("images/sample.png")),
      ("category", JValue.str category),
      ("location", JValue.str ("Somewhere remote")),
      ("cause", JValue.str ("Hunting")) ]

/-- The validated record that `mkEventJ` is expected to produce (all the
sample strings are already trimmed). -/
def mkEvent (id year : ℚ) (title : String) (category : AnimalCategory) : ExtinctionEvent :=
  { id := id, year := year, title := title,
    description := "A documented extinction event.",
    imageURL := "images/sample.png",
    category := category,
    location := "Somewhere remote",
    cause := "Hunting" }

/-- A valid three-event payload with a year tie (two events share year 1936)
listed out of chronological order. -/
def samplePayload : JValue :=
  JValue.obj
    [ ("events", JValue.arr
        [ mkEventJ 7 1936 ("Tasmanian Tiger") ("Mammals"),
          mkEventJ 1 1662 ("Dodo Bird") ("Birds"),
          mkEventJ 9 1936 ("Toolache Wallaby") ("Mammals") ]) ]

/-- The validation result of `samplePayload`, in payload order. -/
def sampleValidated : List ExtinctionEvent :=
  [ mkEvent 7 1936 ("Tasmanian Tiger") AnimalCategory.Mammals,
    mkEvent 1 1662 ("Dodo Bird") AnimalCategory.Birds,
    mkEvent 9 1936 ("Toolache Wallaby") AnimalCategory.Mammals ]

/-- The rational 3/2, a finite JSON number that is not an integer. -/
def threeHalves : ℚ := ⟨3, 2, by norm_num, by norm_num [Nat.Coprime]⟩

/-- The rational 1/2. -/
def oneHalf : ℚ := ⟨1, 2, by norm_num, by norm_num [Nat.Coprime]⟩

/-- A payload whose two events both carry the non-integer id 3/2 and whose
first event has the non-integer year 1/2 — every field passes the
`DataFetcher` checks. -/
def nonIntegerPayload : JValue :=
  JValue.obj
    [ ("events", JValue.arr
        [ mkEventJ threeHalves oneHalf ("Dodo Bird") ("Birds"),
          mkEventJ threeHalves 1936 ("Tasmanian Tiger") ("Mammals") ]) ]

/-- An events array whose single element lacks the required field `title`. -/
def eventsMissingTitle : JValue :=
  JValue.arr
    [ JValue.obj
        [ ("id", JValue.num 1),
          ("year", JValue.num 1662),
          ("description", JValue.str ("A documented extinction event.")),
          ("imageURL", JValue.str ("images/sample.png")),
          ("category", JValue.str ("Birds")),
          ("location", JValue.str ("Somewhere remote")),
          ("cause", JValue.str ("Hunting")) ] ]

/-- An events array whose single element lacks the required field `cause`. -/
def eventsMissingCause : JValue :=
  JValue.arr
    [ JValue.obj
        [ ("id", JValue.num 1),
          ("year", JValue.num 1662),
          ("title", JValue.str ("Dodo Bird")),
          ("description", JValue.str ("A documented extinction event.")),
          ("imageURL", JValue.str ("images/sample.png")),
          ("category", JValue.str ("Birds")),
          ("location", JValue.str ("Somewhere remote")) ] ]

/-- A payload whose single event has the out-of-enumeration category
`Fish`. -/
def fishPayload : JValue :=
  JValue.obj
    [ ("events", JValue.arr [ mkEventJ 1 1920 ("Great Auk") ("Fish") ]) ]

/-! ## Spec-side predicates

These definitions follow the wording of the specification (not the code);
they exist to compare the code's validators against the spec's description
of malformedness, and to state that a validation error correctly identifies
its offender. -/

namespace SpecModel

/-- The check applied to a number field, as a predicate on the looked-up
value: present and a JSON number. -/
def numberCheckFails (v : JValue) : Bool :=
  match v with
  | .num _ => false
  | _ => true

/-- The check applied to a plain string field: present, a string, and
non-empty after trimming. -/
def stringCheckFails (v : JValue) : Bool :=
  match v with
  | .str s => jsTrim s = ""
  | _ => true

/-- The check applied to the category field: a string inside the closed
enumeration. -/
def categoryCheckFails (v : JValue) : Bool :=
  match v with
  | .str s => !(s = "Mammals" || s = "Birds" || s = "Reptiles")
  | _ => true

/-- From the spec: a single payload element is malformed when it is not an
object, lacks a required field (or has it null), has a field of the wrong
primitive kind, or has a category outside the closed enumeration. -/
def specBadElement (v : JValue) : Bool :=
  match v with
  | .obj fields =>
    (DataFetcher.requiredFields.any (fun f => DataFetcher.fieldMissing fields f)) ||
    !(UseExtinctionEvents.isNumberValue (jlookup fields ("id"))) ||
    !(UseExtinctionEvents.isNumberValue (jlookup fields ("year"))) ||
    !(UseExtinctionEvents.isStringValue (jlookup fields ("title"))) ||
    !(UseExtinctionEvents.isStringValue (jlookup fields ("description"))) ||
    !(UseExtinctionEvents.isStringValue (jlookup fields ("imageURL"))) ||
    !(UseExtinctionEvents.isStringValue (jlookup fields ("location"))) ||
    !(UseExtinctionEvents.isStringValue (jlookup fields ("cause"))) ||
    categoryCheckFails ((jlookup fields ("category")).getD JValue.null)
  | _ => true

/-- From the spec: a payload is malformed when the top level is not an
object containing an array field `events`, or some element is malformed. -/
def specMalformedResponse (data : JValue) : Bool :=
  match data with
  | .obj fields =>
    match jlookup fields ("events") with
    | some (.arr elements) => elements.any specBadElement
    | _ => true
  | _ => true

/-- From the spec: the events value handed to the React hook's
`validateEvents` is malformed when it is not an array or some element is
malformed. -/
def specMalformedEventsValue (events : JValue) : Bool :=
  match events with
  | .arr elements => elements.any specBadElement
  | _ => true

/-- The `events` array of a payload, when the top level is an object with
an array field `events`. -/
def eventsArrayOf (data : JValue) : Option (List JValue) :=
  match data with
  | .obj fields =>
    match jlookup fields ("events") with
    | some (.arr elements) => some elements
    | _ => none
  | _ => none

/-- The five plain string fields of an event. -/
def stringFields : List String :=
  ["title", "description", "imageURL", "location", "cause"]

/-- Per failure kind, the statement that field `f` of the object `fields`
really fails the corresponding source check. -/
def fieldCheckFails (fields : List (String × JValue)) (f : String) : DataFetcher.FieldFailure → Prop
  | .notANumber => (f = "id" ∨ f = "year") ∧ numberCheckFails ((jlookup fields f).getD JValue.null) = true
  | .notANonEmptyString => f ∈ stringFields ∧ stringCheckFails ((jlookup fields f).getD JValue.null) = true
  | .notACategory => f = "category" ∧ categoryCheckFails ((jlookup fields f).getD JValue.null) = true

/-- A validation error correctly identifies its offender: the named index
exists in the events array and the named field of that element really fails
the named check. -/
def errorDiagnosisOK (data : JValue) : DataFetcher.VError → Prop
  | .responseNotObject => DataFetcher.isObject data = false
  | .missingEventsArray => DataFetcher.isObject data = true ∧ eventsArrayOf data = none
  | .eventNotObject i =>
    ∃ elements v, eventsArrayOf data = some elements ∧ elements[i]? = some v ∧
      DataFetcher.isObject v = false
  | .missingField i f =>
    ∃ elements fields, eventsArrayOf data = some elements ∧
      elements[i]? = some (JValue.obj fields) ∧
      f ∈ DataFetcher.requiredFields ∧ DataFetcher.fieldMissing fields f = true
  | .badField i f k =>
    ∃ elements fields, eventsArrayOf data = some elements ∧
      elements[i]? = some (JValue.obj fields) ∧ fieldCheckFails fields f k

end SpecModel

/-! ## Lemmas about the sort -/

namespace DataFetcher

theorem yearLE_trans (a b c : ExtinctionEvent) (hab : yearLE a b = true) (hbc : yearLE b c = true) :
    yearLE a c = true := by
  simp only [yearLE, decide_eq_true_eq] at hab hbc ⊢
  exact le_trans hab hbc

theorem yearLE_total (a b : ExtinctionEvent) : (yearLE a b || yearLE b a) = true := by
  simp only [yearLE, Bool.or_eq_true, decide_eq_true_eq]
  exact le_total a.year b.year

/-- Stability of `sortEventsByYear`, phrased through filters: for any
predicate whose satisfying events are pairwise `yearLE`-comparable (in
particular, "has year `y`"), sorting does not change the filtered
subsequence. -/
theorem sortEventsByYear_filter_eq (l : List ExtinctionEvent) (p : ExtinctionEvent → Bool)
    (hp : ∀ a b, p a = true → p b = true → yearLE a b = true) :
    (sortEventsByYear l).filter p = l.filter p := by
  have hperm : (l.mergeSort yearLE).Perm l := List.mergeSort_perm l yearLE
  have hsub : (l.filter p).Sublist l := List.filter_sublist l
  have hpw : (l.filter p).Pairwise (fun a b => yearLE a b = true) := by
    rw [List.pairwise_iff_forall_sublist]
    intro a b hsl
    have ha : a ∈ l.filter p := hsl.subset (by simp)
    have hb : b ∈ l.filter p := hsl.subset (by simp)
    exact hp a b (List.of_mem_filter ha) (List.of_mem_filter hb)
  have hstable : (l.filter p).Sublist (l.mergeSort yearLE) :=
    List.sublist_mergeSort yearLE_trans yearLE_total hpw hsub
  have hself : (l.filter p).filter p = l.filter p :=
    List.filter_eq_self.mpr (fun a ha => List.of_mem_filter ha)
  have hsub2 : (l.filter p).Sublist ((l.mergeSort yearLE).filter p) := by
    have := hstable.filter p
    rwa [hself] at this
  have hlen : (l.filter p).length = ((l.mergeSort yearLE).filter p).length :=
    ((hperm.filter p).length_eq).symm
  exact (hsub2.eq_of_length hlen).symm

end DataFetcher

/-- C1.  For every valid payload, `load()` returns the events sorted
ascending (non-decreasing) by `year`, and the sort is stable: the events of
any fixed year appear in the output exactly in their original array order
(stated as filter preservation, which also forces equal-year relative order
for distinct years' groups), and the output is a permutation of the
validated input. -/
theorem load_sorted_stable_by_year (data : JValue) (validated : List ExtinctionEvent)
    (h : DataFetcher.validateResponse data = .ok validated) :
    ∃ es, DataFetcher.fetchEvents data = .ok es ∧
      es.Pairwise (fun a b => a.year ≤ b.year) ∧
      es.Perm validated ∧
      ∀ y : ℚ, es.filter (fun e => decide (e.year = y)) =
        validated.filter (fun e => decide (e.year = y)) := by
  refine ⟨DataFetcher.sortEventsByYear validated, ?_, ?_, ?_, ?_⟩
  · simp only [DataFetcher.fetchEvents, h]
    rfl
  · have hs := List.sorted_mergeSort DataFetcher.yearLE_trans DataFetcher.yearLE_total validated
    exact hs.imp (fun hab => by
      simpa [DataFetcher.yearLE, decide_eq_true_eq] using hab)
  · exact List.mergeSort_perm validated DataFetcher.yearLE
  · intro y
    apply DataFetcher.sortEventsByYear_filter_eq
    intro a b ha hb
    simp only [decide_eq_true_eq] at ha hb
    simp only [DataFetcher.yearLE, decide_eq_true_eq]
    rw [ha, hb]

/-- Witness for C1 at the concrete tie-containing payload: the load
succeeds, is sorted, and keeps the two 1936 events in payload order. -/
theorem load_sorted_stable_by_year_witness :
    ∃ es, DataFetcher.fetchEvents samplePayload = .ok es ∧
      es.Pairwise (fun a b => a.year ≤ b.year) ∧
      es.Perm sampleValidated ∧
      ∀ y : ℚ, es.filter (fun e => decide (e.year = y)) =
        sampleValidated.filter (fun e => decide (e.year = y)) :=
  load_sorted_stable_by_year samplePayload sampleValidated (by rfl)

/-! ## Lemmas about filtering and counts -/

theorem AnimalCategory.toFilter_ne_all (c : AnimalCategory) : c.toFilter ≠ FilterCategory.All := by
  cases c <;> simp [AnimalCategory.toFilter]

theorem AnimalCategory.toFilter_inj (a b : AnimalCategory) (h : a.toFilter = b.toFilter) : a = b := by
  cases a <;> cases b <;> simp_all [AnimalCategory.toFilter]

theorem FilterComponent.foldl_counts_eq (l : List ExtinctionEvent)
    (acc : FilterCategory → Nat) (c : FilterCategory) :
    l.foldl (fun counts e => fun c => if c = e.category.toFilter then counts c + 1 else counts c) acc c =
      acc c + (l.filter (fun e => decide (e.category.toFilter = c))).length := by
  induction l generalizing acc with
  | nil => simp
  | cons e t ih =>
    simp only [List.foldl_cons, List.filter_cons, ih]
    by_cases h : c = e.category.toFilter
    · simp [h, eq_comm]
      omega
    · have h2 : ¬(e.category.toFilter = c) := fun hc => h hc.symm
      simp [h, h2]

theorem animal_filter_length_sum (l : List ExtinctionEvent) :
    (l.filter (fun e => decide (e.category = AnimalCategory.Mammals))).length +
      (l.filter (fun e => decide (e.category = AnimalCategory.Birds))).length +
      (l.filter (fun e => decide (e.category = AnimalCategory.Reptiles))).length = l.length := by
  induction l with
  | nil => simp
  | cons e t ih =>
    cases h : e.category <;> simp [List.filter_cons, h] <;> omega

theorem getCategoryCounts_all_eq (l : List ExtinctionEvent) :
    FilterComponent.getCategoryCounts l FilterCategory.All = l.length := by
  rw [FilterComponent.getCategoryCounts, FilterComponent.foldl_counts_eq]
  have hnil : l.filter (fun e => decide (e.category.toFilter = FilterCategory.All)) = [] := by
    rw [List.filter_eq_nil_iff]
    intro e _
    simp [AnimalCategory.toFilter_ne_all]
  simp [hnil]

theorem getCategoryCounts_animal_eq (l : List ExtinctionEvent) (c : AnimalCategory) :
    FilterComponent.getCategoryCounts l c.toFilter =
      (l.filter (fun e => decide (e.category = c))).length := by
  have hfe : ∀ d : AnimalCategory, (fun e : ExtinctionEvent => decide (e.category.toFilter = d.toFilter)) =
      (fun e : ExtinctionEvent => decide (e.category = d)) := by
    intro d
    funext e
    by_cases h : e.category = d
    · simp [h]
    · have hne : ¬e.category.toFilter = d.toFilter :=
        fun hc => h (AnimalCategory.toFilter_inj _ _ hc)
      simp [h, hne]
  cases c <;>
    · rw [FilterComponent.getCategoryCounts, FilterComponent.foldl_counts_eq, hfe]
      simp [AnimalCategory.toFilter]

/-- C4.  For every event list and filter category, `getFilteredEvents`
returns exactly the order-preserving subsequence of events whose category
equals the filter, and the full list when the filter is `All`; the React
hook's `filteredEvents` memo computes the same function. -/
theorem getFilteredEvents_exact (l : List ExtinctionEvent) (c : FilterCategory) :
    FilterComponent.getFilteredEvents FilterCategory.All l = l ∧
    (c ≠ FilterCategory.All →
      FilterComponent.getFilteredEvents c l =
        l.filter (fun e => decide (e.category.toFilter = c))) ∧
    (FilterComponent.getFilteredEvents c l).Sublist l ∧
    UseExtinctionEvents.filteredEvents c l = FilterComponent.getFilteredEvents c l := by
  refine ⟨by simp [FilterComponent.getFilteredEvents], ?_, ?_, ?_⟩
  · intro h
    simp [FilterComponent.getFilteredEvents, h]
  · by_cases h : c = FilterCategory.All
    · simp [FilterComponent.getFilteredEvents, h]
    · simp only [FilterComponent.getFilteredEvents, if_neg h]
      exact List.filter_sublist l
  · rfl

/-- Witness for C4 at a concrete list and the `Birds` filter. -/
theorem getFilteredEvents_exact_witness :
    FilterComponent.getFilteredEvents FilterCategory.All sampleValidated = sampleValidated ∧
    FilterComponent.getFilteredEvents FilterCategory.Birds sampleValidated =
      sampleValidated.filter (fun e => decide (e.category.toFilter = FilterCategory.Birds)) :=
  ⟨(getFilteredEvents_exact sampleValidated FilterCategory.Birds).1,
   (getFilteredEvents_exact sampleValidated FilterCategory.Birds).2.1 (by decide)⟩

/-- C5.  `getCategoryCounts` reports all four filter categories: `All` is
the total event count, each animal category's count is the number of events
carrying it (hence zero for a category no event carries), and the three
animal-category counts sum to the total.  (`App.tsx`'s `eventCounts` memo
is the same computation.) -/
theorem getCategoryCounts_complete (l : List ExtinctionEvent) :
    FilterComponent.getCategoryCounts l FilterCategory.All = l.length ∧
    (∀ c : AnimalCategory, FilterComponent.getCategoryCounts l c.toFilter =
      (l.filter (fun e => decide (e.category = c))).length) ∧
    FilterComponent.getCategoryCounts l FilterCategory.Mammals +
      FilterComponent.getCategoryCounts l FilterCategory.Birds +
      FilterComponent.getCategoryCounts l FilterCategory.Reptiles = l.length ∧
    (∀ c : AnimalCategory, (∀ e ∈ l, e.category ≠ c) →
      FilterComponent.getCategoryCounts l c.toFilter = 0) := by
  refine ⟨getCategoryCounts_all_eq l, fun c => getCategoryCounts_animal_eq l c, ?_, ?_⟩
  · have hm := getCategoryCounts_animal_eq l AnimalCategory.Mammals
    have hb := getCategoryCounts_animal_eq l AnimalCategory.Birds
    have hr := getCategoryCounts_animal_eq l AnimalCategory.Reptiles
    simp only [AnimalCategory.toFilter] at hm hb hr
    rw [hm, hb, hr]
    exact animal_filter_length_sum l
  · intro c hc
    rw [getCategoryCounts_animal_eq l c]
    have hnil : l.filter (fun e => decide (e.category = c)) = [] := by
      rw [List.filter_eq_nil_iff]
      intro e he
      simpa using hc e he
    simp [hnil]

/-- Witness for C5 at a concrete list with no `Reptiles` events. -/
theorem getCategoryCounts_complete_witness :
    FilterComponent.getCategoryCounts sampleValidated FilterCategory.All = 3 ∧
    FilterComponent.getCategoryCounts sampleValidated FilterCategory.Reptiles = 0 := by
  have h := getCategoryCounts_complete sampleValidated
  refine ⟨h.1, ?_⟩
  have := h.2.2.2 AnimalCategory.Reptiles (by decide)
  simpa [AnimalCategory.toFilter] using this

/-! ## Theme state -/

/-- C6.  `toggleTheme` flips the theme unconditionally and is its own
inverse on the theme, and `setTheme` with the current theme value returns
the state unchanged — no DOM update, no persistence write, no listener
notification.  The stage-3 script's `toggleTheme` is likewise an involution
on the dark-mode flag. -/
theorem theme_toggle_involutive_setTheme_noop (s : ThemeComponent.State) :
    (ThemeComponent.toggleTheme (ThemeComponent.toggleTheme s)).currentTheme = s.currentTheme ∧
    (ThemeComponent.toggleTheme s).currentTheme =
      (match s.currentTheme with
       | Theme.light => Theme.dark
       | Theme.dark => Theme.light) ∧
    ThemeComponent.setTheme s.currentTheme true s = s ∧
    (∀ t : Stage3.ThemeState,
      (Stage3.toggleTheme (Stage3.toggleTheme t)).bodyDarkClass = t.bodyDarkClass) := by
  refine ⟨?_, ?_, ?_, ?_⟩
  · cases hc : s.currentTheme <;>
      simp [ThemeComponent.toggleTheme, ThemeComponent.setTheme, ThemeComponent.applyTheme,
        ThemeComponent.updateToggleButton, ThemeComponent.saveThemePreference, hc]
  · cases hc : s.currentTheme <;>
      simp [ThemeComponent.toggleTheme, ThemeComponent.setTheme, ThemeComponent.applyTheme,
        ThemeComponent.updateToggleButton, ThemeComponent.saveThemePreference, hc]
  · simp [ThemeComponent.setTheme]
  · intro t
    simp [Stage3.toggleTheme]

/-- C7 counterexample.  The claim demands that with no persisted preference
the platform-reported color scheme wins; the stage-3 script's
`initializeTheme` never consults the platform, so with nothing stored and a
platform preferring dark it still chooses light. -/
theorem stage3_initializeTheme_ignores_platform :
    Stage3.initializeTheme none = Theme.light ∧
    ThemeComponent.detectSystemTheme (some true) = Theme.dark ∧
    Stage3.initializeTheme none ≠ ThemeComponent.detectSystemTheme (some true) := by
  refine ⟨rfl, rfl, ?_⟩
  decide

/-- C7 amended.  The `ThemeComponent` initialization follows the claimed
precedence — a valid persisted preference wins, else the platform-reported
color scheme, else light, with corrupt or absent persisted values treated
as no preference — while the stage-3 script's `initializeTheme` chooses
dark exactly when the persisted value is the literal string `dark` and
never consults the platform preference. -/
theorem initializeTheme_precedence :
    (∀ (stored : Option String) (prefersDark : Option Bool) (t : Theme),
      ThemeComponent.loadThemePreference stored = some t →
      ThemeComponent.initializeTheme stored prefersDark = t) ∧
    (∀ prefersDark : Option Bool,
      ThemeComponent.initializeTheme none prefersDark =
        ThemeComponent.detectSystemTheme prefersDark) ∧
    (∀ (s : String) (prefersDark : Option Bool), s ≠ "light" → s ≠ "dark" →
      ThemeComponent.initializeTheme (some s) prefersDark =
        ThemeComponent.detectSystemTheme prefersDark) ∧
    ThemeComponent.detectSystemTheme (some true) = Theme.dark ∧
    ThemeComponent.detectSystemTheme (some false) = Theme.light ∧
    ThemeComponent.detectSystemTheme none = Theme.light ∧
    Stage3.initializeTheme (some ("dark")) = Theme.dark ∧
    (∀ s : String, s ≠ "dark" → Stage3.initializeTheme (some s) = Theme.light) ∧
    Stage3.initializeTheme none = Theme.light := by
  refine ⟨?_, ?_, ?_, rfl, rfl, rfl, rfl, ?_, rfl⟩
  · intro stored prefersDark t h
    simp [ThemeComponent.initializeTheme, h]
  · intro prefersDark
    simp [ThemeComponent.initializeTheme, ThemeComponent.loadThemePreference]
  · intro s prefersDark h1 h2
    simp [ThemeComponent.initializeTheme, ThemeComponent.loadThemePreference, h1, h2]
  · intro s h
    simp [Stage3.initializeTheme, h]

/-- Witness for C7's amended statement at concrete inputs: a stored `dark`
beats a light platform, a corrupt stored value falls back to the platform,
and the stage-3 variant ignores a corrupt value. -/
theorem initializeTheme_precedence_witness :
    ThemeComponent.initializeTheme (some ("dark")) (some false) = Theme.dark ∧
    ThemeComponent.initializeTheme (some ("blue")) (some true) = Theme.dark ∧
    Stage3.initializeTheme (some ("blue")) = Theme.light := by
  refine ⟨?_, ?_, ?_⟩
  · exact initializeTheme_precedence.1 (some ("dark")) (some false) Theme.dark (by rfl)
  · have h := initializeTheme_precedence.2.2.1 ("blue") (some true) (by decide) (by decide)
    rw [h]
    rfl
  · exact initializeTheme_precedence.2.2.2.2.2.2.2.1 ("blue") (by decide)

/-! ## Modal state -/

theorem ModalComponent.invariant_applyOp (s : ModalComponent.State) (op : ModalComponent.Op)
    (h : ModalComponent.invariant s) : ModalComponent.invariant (ModalComponent.applyOp op s) := by
  cases op with
  | opOpen e => simp [ModalComponent.applyOp, ModalComponent.openModal, ModalComponent.invariant]
  | opClose =>
    by_cases hc : s.isOpen = false
    · simpa [ModalComponent.applyOp, ModalComponent.close, hc] using h
    · simp [ModalComponent.applyOp, ModalComponent.close, hc, ModalComponent.invariant]

theorem ModalComponent.invariant_run (ops : List ModalComponent.Op) (s : ModalComponent.State)
    (h : ModalComponent.invariant s) : ModalComponent.invariant (ModalComponent.run ops s) := by
  induction ops generalizing s with
  | nil => exact h
  | cons op rest ih =>
    exact ih (ModalComponent.applyOp op s) (ModalComponent.invariant_applyOp s op h)

/-- C8.  Under every sequence of open/close calls from the initial state,
`isOpen` is false exactly when the selection is empty; `open(e1); open(e2)`
leaves `e2` as the only selection; `open(e); close()` leaves the modal
closed with no selection; `close()` twice is the same as once.  The React
`useModal` hook satisfies the same scenario equations. -/
theorem modal_invariant_and_scenarios :
    (∀ ops : List ModalComponent.Op,
      ModalComponent.invariant (ModalComponent.run ops ModalComponent.initialState)) ∧
    (∀ (s : ModalComponent.State) (e1 e2 : ExtinctionEvent),
      (ModalComponent.openModal e2 (ModalComponent.openModal e1 s)).currentEvent = some e2 ∧
      (ModalComponent.openModal e2 (ModalComponent.openModal e1 s)).isOpen = true) ∧
    (∀ (s : ModalComponent.State) (e : ExtinctionEvent),
      (ModalComponent.close (ModalComponent.openModal e s)).currentEvent = none ∧
      (ModalComponent.close (ModalComponent.openModal e s)).isOpen = false) ∧
    (∀ s : ModalComponent.State,
      ModalComponent.close (ModalComponent.close s) = ModalComponent.close s) ∧
    (∀ (s : UseModal.State) (e : ExtinctionEvent),
      (UseModal.closeModal (UseModal.openModal e s)).selectedEvent = none ∧
      (UseModal.closeModal (UseModal.openModal e s)).isOpen = false ∧
      UseModal.closeModal (UseModal.closeModal s) = UseModal.closeModal s ∧
      (UseModal.openModal e s).isOpen = true ∧
      (UseModal.openModal e s).selectedEvent = some e) := by
  refine ⟨?_, ?_, ?_, ?_, ?_⟩
  · intro ops
    exact ModalComponent.invariant_run ops ModalComponent.initialState
      (by simp [ModalComponent.initialState, ModalComponent.invariant])
  · intro s e1 e2
    exact ⟨rfl, rfl⟩
  · intro s e
    constructor <;> simp [ModalComponent.close, ModalComponent.openModal]
  · intro s
    by_cases h : s.isOpen = false
    · simp [ModalComponent.close, h]
    · simp [ModalComponent.close, h]
  · intro s e
    exact ⟨rfl, rfl, rfl, rfl, rfl⟩

/-! ## Renderer precedence -/

/-- C9 counterexample.  With loading off and the error prop set to the
empty string, the `Timeline` component does not render the error panel:
the source's `if (error)` uses JavaScript string truthiness, so an empty
error string falls through (here to the empty state). -/
theorem timeline_empty_string_error_skipped :
    Timeline [] false (some ("")) = TimelineView.noEvents ∧
    ∀ m : String, Timeline [] false (some ("")) ≠ TimelineView.errorDisplay m := by
  constructor
  · rfl
  · intro m h
    rw [show Timeline [] false (some ("")) = TimelineView.noEvents from rfl] at h
    exact TimelineView.noConfusion h

/-- C9 amended.  The `Timeline` component renders exactly one view with the
precedence loading over error over empty over populated, where "an error is
set" means a non-empty error string (JavaScript truthiness): if `isLoading`
then the loading indicator regardless of event count, else if a non-empty
error string is set then the error panel, else if the event list is empty
then the empty state, else the event markers. -/
theorem timeline_precedence (events : List ExtinctionEvent) (isLoading : Bool)
    (error : Option String) :
    (isLoading = true → Timeline events isLoading error =
      TimelineView.loadingSpinner ("Loading extinction timeline...")) ∧
    (isLoading = false → ∀ m : String, error = some m → m ≠ "" →
      Timeline events isLoading error = TimelineView.errorDisplay m) ∧
    (isLoading = false → (error = none ∨ error = some ("")) → events = [] →
      Timeline events isLoading error = TimelineView.noEvents) ∧
    (isLoading = false → (error = none ∨ error = some ("")) → events ≠ [] →
      Timeline events isLoading error = TimelineView.eventMarkers events) := by
  refine ⟨?_, ?_, ?_, ?_⟩
  · intro h
    subst h
    simp [Timeline]
  · intro h m hm hne
    subst h
    subst hm
    simp [Timeline, hne]
  · intro h he hev
    subst h
    subst hev
    rcases he with he | he <;> subst he <;> simp [Timeline]
  · intro h he hev
    subst h
    rcases he with he | he <;> subst he <;>
      simp [Timeline, List.length_eq_zero, hev]

/-- Witness for C9's amended statement: one concrete input per branch of
the precedence chain. -/
theorem timeline_precedence_witness :
    Timeline sampleValidated true (some ("boom")) =
      TimelineView.loadingSpinner ("Loading extinction timeline...") ∧
    Timeline sampleValidated false (some ("boom")) = TimelineView.errorDisplay ("boom") ∧
    Timeline [] false none = TimelineView.noEvents ∧
    Timeline sampleValidated false none = TimelineView.eventMarkers sampleValidated := by
  refine ⟨?_, ?_, ?_, ?_⟩
  · exact (timeline_precedence sampleValidated true (some ("boom"))).1 rfl
  · exact (timeline_precedence sampleValidated false (some ("boom"))).2.1 rfl ("boom") rfl (by decide)
  · exact (timeline_precedence [] false none).2.2.1 rfl (Or.inl rfl) rfl
  · exact (timeline_precedence sampleValidated false none).2.2.2 rfl (Or.inl rfl) (by decide)

/-! ## Keyboard activation -/

/-- C10 (code bug).  Evaluating the embedded `EventMarker` handlers: on an
Enter keydown the activation callback receives the `KeyboardEvent` object
itself — the handler's parameter `event` shadows the `event` prop — and
never the entry's `ExtinctionEvent`, while a pointer click does deliver the
entry's data.  The same shadowing makes the Learn More button pass the
`MouseEvent`. -/
theorem eventMarker_keyboard_activation_evaluated :
    EventMarker.handleKeyDown (mkEvent 1 1662 ("Dodo Bird") AnimalCategory.Birds)
        { key := "Enter" } =
      some (EventMarker.OnClickArg.keyboardEvent { key := "Enter" }) ∧
    (∀ e : ExtinctionEvent,
      EventMarker.handleKeyDown (mkEvent 1 1662 ("Dodo Bird") AnimalCategory.Birds)
          { key := "Enter" } ≠
        some (EventMarker.OnClickArg.extinctionEvent e)) ∧
    EventMarker.handleClick (mkEvent 1 1662 ("Dodo Bird") AnimalCategory.Birds) =
      EventMarker.OnClickArg.extinctionEvent (mkEvent 1 1662 ("Dodo Bird") AnimalCategory.Birds) ∧
    EventMarker.handleLearnMoreClick (mkEvent 1 1662 ("Dodo Bird") AnimalCategory.Birds)
        { button := 0 } =
      EventMarker.OnClickArg.mouseEvent { button := 0 } := by
  refine ⟨rfl, ?_, rfl, rfl⟩
  intro e h
  rw [show EventMarker.handleKeyDown (mkEvent 1 1662 ("Dodo Bird") AnimalCategory.Birds)
      { key := "Enter" } =
    some (EventMarker.OnClickArg.keyboardEvent { key := "Enter" }) from rfl] at h
  simp at h

/-! ## Validation lemmas -/

theorem dropWhile_self_idem {α : Type} (p : α → Bool) (l : List α) :
    (l.dropWhile p).dropWhile p = l.dropWhile p := by
  induction l with
  | nil => simp
  | cons a t ih =>
    by_cases h : p a
    · simp [List.dropWhile_cons, h, ih]
    · simp [List.dropWhile_cons, h]

theorem dropWhile_head_not {α : Type} (p : α → Bool) (l : List α) (a : α) (t : List α)
    (h : l.dropWhile p = a :: t) : p a = false := by
  induction l with
  | nil => simp at h
  | cons b l2 ih =>
    by_cases hb : p b
    · rw [List.dropWhile_cons, if_pos hb] at h
      exact ih h
    · rw [List.dropWhile_cons, if_neg hb] at h
      cases h
      simpa using hb

theorem jsTrim_idem (s : String) : jsTrim (jsTrim s) = jsTrim s := by
  show String.mk _ = String.mk _
  congr 1
  have hd : ∀ l : List Char,
      ((l.dropWhile Char.isWhitespace).reverse.dropWhile Char.isWhitespace).reverse.dropWhile
        Char.isWhitespace =
      ((l.dropWhile Char.isWhitespace).reverse.dropWhile Char.isWhitespace).reverse := by
    intro l
    have hsuf : ((l.dropWhile Char.isWhitespace).reverse.dropWhile Char.isWhitespace) <:+
        (l.dropWhile Char.isWhitespace).reverse := List.dropWhile_suffix Char.isWhitespace
    have hpre : ((l.dropWhile Char.isWhitespace).reverse.dropWhile Char.isWhitespace).reverse <+:
        l.dropWhile Char.isWhitespace := by
      apply List.reverse_suffix.mp
      rw [List.reverse_reverse]
      exact hsuf
    cases hr : ((l.dropWhile Char.isWhitespace).reverse.dropWhile Char.isWhitespace).reverse with
    | nil => simp
    | cons a t =>
      obtain ⟨u, hu⟩ := hpre
      rw [hr] at hu
      have hdrop : l.dropWhile Char.isWhitespace = a :: (t ++ u) := by
        rw [← hu]
        simp
      have ha : Char.isWhitespace a = false :=
        dropWhile_head_not Char.isWhitespace l a (t ++ u) hdrop
      simp [List.dropWhile_cons, ha]
  calc ((((((String.mk s.data).data.dropWhile Char.isWhitespace).reverse.dropWhile
            Char.isWhitespace).reverse).dropWhile Char.isWhitespace).reverse.dropWhile
          Char.isWhitespace).reverse =
      (((((s.data.dropWhile Char.isWhitespace).reverse.dropWhile Char.isWhitespace).reverse).dropWhile
          Char.isWhitespace).reverse.dropWhile Char.isWhitespace).reverse := rfl
    _ = ((((s.data.dropWhile Char.isWhitespace).reverse.dropWhile
          Char.isWhitespace).reverse).reverse.dropWhile Char.isWhitespace).reverse := by
        rw [hd s.data]
    _ = (((s.data.dropWhile Char.isWhitespace).reverse.dropWhile
          Char.isWhitespace).dropWhile Char.isWhitespace).reverse := by
        rw [List.reverse_reverse]
    _ = ((s.data.dropWhile Char.isWhitespace).reverse.dropWhile Char.isWhitespace).reverse := by
        rw [dropWhile_self_idem]

theorem exceptBind_ok {ε α β : Type} (x : Except ε α) (f : α → Except ε β) (b : β)
    (h : x >>= f = Except.ok b) : ∃ a, x = Except.ok a ∧ f a = Except.ok b := by
  cases x with
  | ok a => exact ⟨a, rfl, h⟩
  | error e =>
    rw [show ((Except.error e : Except ε α) >>= f) = (Except.error e : Except ε β) from rfl] at h
    exact Except.noConfusion h

theorem exceptBind_error {ε α β : Type} (x : Except ε α) (f : α → Except ε β) (er : ε)
    (h : x >>= f = Except.error er) :
    x = Except.error er ∨ ∃ a, x = Except.ok a ∧ f a = Except.error er := by
  cases x with
  | ok a => exact Or.inr ⟨a, rfl, h⟩
  | error e =>
    rw [show ((Except.error e : Except ε α) >>= f) = (Except.error e : Except ε β) from rfl] at h
    cases h
    exact Or.inl rfl

theorem DataFetcher.validateNumber_ok_inv (v : JValue) (i : Nat) (f : String) (q : ℚ)
    (h : DataFetcher.validateNumber v i f = .ok q) : v = JValue.num q := by
  cases v <;> simp [DataFetcher.validateNumber] at h <;> simp [h]

theorem DataFetcher.validateNumber_error_inv (v : JValue) (i : Nat) (f : String)
    (err : DataFetcher.VError) (h : DataFetcher.validateNumber v i f = .error err) :
    err = .badField i f .notANumber ∧ SpecModel.numberCheckFails v = true := by
  cases v <;> simp [DataFetcher.validateNumber] at h <;>
    simp [SpecModel.numberCheckFails, h.symm]

theorem DataFetcher.validateString_ok_inv (v : JValue) (i : Nat) (f out : String)
    (h : DataFetcher.validateString v i f = .ok out) :
    ∃ s, v = JValue.str s ∧ out = jsTrim s ∧ jsTrim s ≠ "" := by
  cases v with
  | str s =>
    by_cases he : jsTrim s = ""
    · simp [DataFetcher.validateString, he] at h
    · simp [DataFetcher.validateString, he] at h
      exact ⟨s, rfl, h.symm, he⟩
  | null => simp [DataFetcher.validateString] at h
  | bool b => simp [DataFetcher.validateString] at h
  | num q => simp [DataFetcher.validateString] at h
  | arr xs => simp [DataFetcher.validateString] at h
  | obj fs => simp [DataFetcher.validateString] at h

theorem DataFetcher.validateString_ok_trimmed (v : JValue) (i : Nat) (f out : String)
    (h : DataFetcher.validateString v i f = .ok out) :
    jsTrim out = out ∧ out ≠ "" := by
  obtain ⟨s, _, hout, hne⟩ := DataFetcher.validateString_ok_inv v i f out h
  subst hout
  exact ⟨jsTrim_idem s, hne⟩

theorem DataFetcher.validateString_error_inv (v : JValue) (i : Nat) (f : String)
    (err : DataFetcher.VError) (h : DataFetcher.validateString v i f = .error err) :
    err = .badField i f .notANonEmptyString ∧ SpecModel.stringCheckFails v = true := by
  cases v with
  | str s =>
    by_cases he : jsTrim s = ""
    · simp [DataFetcher.validateString, he] at h
      simp [SpecModel.stringCheckFails, he, h.symm]
    · simp [DataFetcher.validateString, he] at h
  | null => simp [DataFetcher.validateString] at h; simp [SpecModel.stringCheckFails, h.symm]
  | bool b => simp [DataFetcher.validateString] at h; simp [SpecModel.stringCheckFails, h.symm]
  | num q => simp [DataFetcher.validateString] at h; simp [SpecModel.stringCheckFails, h.symm]
  | arr xs => simp [DataFetcher.validateString] at h; simp [SpecModel.stringCheckFails, h.symm]
  | obj fs => simp [DataFetcher.validateString] at h; simp [SpecModel.stringCheckFails, h.symm]

theorem DataFetcher.validateString_ok_isString (v : JValue) (i : Nat) (f out : String)
    (h : DataFetcher.validateString v i f = .ok out) :
    UseExtinctionEvents.isStringValue (some v) = true := by
  obtain ⟨s, hv, _, _⟩ := DataFetcher.validateString_ok_inv v i f out h
  subst hv
  rfl

theorem DataFetcher.validateCategory_ok_inv (v : JValue) (i : Nat) (f : String)
    (c : AnimalCategory) (h : DataFetcher.validateCategory v i f = .ok c) :
    ∃ s, v = JValue.str s ∧ (s = "Mammals" ∨ s = "Birds" ∨ s = "Reptiles") ∧
      SpecModel.categoryCheckFails v = false := by
  cases v with
  | str s =>
    refine ⟨s, rfl, ?_, ?_⟩ <;>
      · rw [DataFetcher.validateCategory] at h
        by_cases h1 : s = "Mammals"
        · simp [h1, SpecModel.categoryCheckFails]
        · by_cases h2 : s = "Birds"
          · simp [h1, h2, SpecModel.categoryCheckFails]
          · by_cases h3 : s = "Reptiles"
            · simp [h1, h2, h3, SpecModel.categoryCheckFails]
            · simp [h1, h2, h3] at h
  | null => simp [DataFetcher.validateCategory] at h
  | bool b => simp [DataFetcher.validateCategory] at h
  | num q => simp [DataFetcher.validateCategory] at h
  | arr xs => simp [DataFetcher.validateCategory] at h
  | obj fs => simp [DataFetcher.validateCategory] at h

theorem DataFetcher.validateCategory_error_inv (v : JValue) (i : Nat) (f : String)
    (err : DataFetcher.VError) (h : DataFetcher.validateCategory v i f = .error err) :
    err = .badField i f .notACategory ∧ SpecModel.categoryCheckFails v = true := by
  cases v with
  | str s =>
    rw [DataFetcher.validateCategory] at h
    by_cases h1 : s = "Mammals"
    · simp [h1] at h
    · by_cases h2 : s = "Birds"
      · simp [h1, h2] at h
      · by_cases h3 : s = "Reptiles"
        · simp [h1, h2, h3] at h
        · simp [h1, h2, h3] at h
          simp [SpecModel.categoryCheckFails, h1, h2, h3, h.symm]
  | null => simp [DataFetcher.validateCategory] at h; simp [SpecModel.categoryCheckFails, h.symm]
  | bool b => simp [DataFetcher.validateCategory] at h; simp [SpecModel.categoryCheckFails, h.symm]
  | num q => simp [DataFetcher.validateCategory] at h; simp [SpecModel.categoryCheckFails, h.symm]
  | arr xs => simp [DataFetcher.validateCategory] at h; simp [SpecModel.categoryCheckFails, h.symm]
  | obj fs => simp [DataFetcher.validateCategory] at h; simp [SpecModel.categoryCheckFails, h.symm]

theorem DataFetcher.validateEvent_ok_inv (v : JValue) (i : Nat) (e : ExtinctionEvent)
    (h : DataFetcher.validateEvent v i = .ok e) :
    ∃ fields, v = JValue.obj fields ∧
      DataFetcher.requiredFields.find? (fun f => DataFetcher.fieldMissing fields f) = none ∧
      DataFetcher.validateNumber ((jlookup fields ("id")).getD JValue.null) i ("id") = .ok e.id ∧
      DataFetcher.validateNumber ((jlookup fields ("year")).getD JValue.null) i ("year") = .ok e.year ∧
      DataFetcher.validateString ((jlookup fields ("title")).getD JValue.null) i ("title") = .ok e.title ∧
      DataFetcher.validateString ((jlookup fields ("description")).getD JValue.null) i
        ("description") = .ok e.description ∧
      DataFetcher.validateString ((jlookup fields ("imageURL")).getD JValue.null) i
        ("imageURL") = .ok e.imageURL ∧
      DataFetcher.validateCategory ((jlookup fields ("category")).getD JValue.null) i
        ("category") = .ok e.category ∧
      DataFetcher.validateString ((jlookup fields ("location")).getD JValue.null) i
        ("location") = .ok e.location ∧
      DataFetcher.validateString ((jlookup fields ("cause")).getD JValue.null) i
        ("cause") = .ok e.cause := by
  cases v with
  | obj fields =>
    rw [DataFetcher.validateEvent] at h
    split at h
    · exact Except.noConfusion h
    · rename_i hf
      obtain ⟨idv, hid, h⟩ := exceptBind_ok _ _ _ h
      obtain ⟨yearv, hyear, h⟩ := exceptBind_ok _ _ _ h
      obtain ⟨titlev, htitle, h⟩ := exceptBind_ok _ _ _ h
      obtain ⟨descv, hdesc, h⟩ := exceptBind_ok _ _ _ h
      obtain ⟨imgv, himg, h⟩ := exceptBind_ok _ _ _ h
      obtain ⟨catv, hcat, h⟩ := exceptBind_ok _ _ _ h
      obtain ⟨locv, hloc, h⟩ := exceptBind_ok _ _ _ h
      obtain ⟨causev, hcause, h⟩ := exceptBind_ok _ _ _ h
      have he : ExtinctionEvent.mk idv yearv titlev descv imgv catv locv causev = e :=
        Except.ok.inj h
      subst he
      exact ⟨fields, rfl, hf, hid, hyear, htitle, hdesc, himg, hcat, hloc, hcause⟩
  | null => exact Except.noConfusion h
  | bool b => exact Except.noConfusion h
  | num q => exact Except.noConfusion h
  | str s => exact Except.noConfusion h
  | arr xs => exact Except.noConfusion h

theorem DataFetcher.validateEvent_error_diag (v : JValue) (j : Nat) (err : DataFetcher.VError)
    (h : DataFetcher.validateEvent v j = .error err) :
    (err = .eventNotObject j ∧ DataFetcher.isObject v = false) ∨
    (∃ f fields, v = JValue.obj fields ∧ err = .missingField j f ∧
      f ∈ DataFetcher.requiredFields ∧ DataFetcher.fieldMissing fields f = true) ∨
    (∃ f k fields, v = JValue.obj fields ∧ err = .badField j f k ∧
      SpecModel.fieldCheckFails fields f k) := by
  cases v with
  | obj fields =>
    rw [DataFetcher.validateEvent] at h
    split at h
    · rename_i f hf
      refine Or.inr (Or.inl ⟨f, fields, rfl, (Except.error.inj h).symm, ?_, ?_⟩)
      · exact List.mem_of_find?_eq_some hf
      · exact List.find?_some hf
    · rename_i hf
      rcases exceptBind_error _ _ _ h with hv | ⟨idv, _, h⟩
      · obtain ⟨he, hfail⟩ := DataFetcher.validateNumber_error_inv _ _ _ _ hv
        exact Or.inr (Or.inr ⟨("id"), .notANumber, fields, rfl, he, Or.inl rfl, hfail⟩)
      rcases exceptBind_error _ _ _ h with hv | ⟨yearv, _, h⟩
      · obtain ⟨he, hfail⟩ := DataFetcher.validateNumber_error_inv _ _ _ _ hv
        exact Or.inr (Or.inr ⟨("year"), .notANumber, fields, rfl, he, Or.inr rfl, hfail⟩)
      rcases exceptBind_error _ _ _ h with hv | ⟨titlev, _, h⟩
      · obtain ⟨he, hfail⟩ := DataFetcher.validateString_error_inv _ _ _ _ hv
        exact Or.inr (Or.inr ⟨("title"), .notANonEmptyString, fields, rfl, he,
          by decide, hfail⟩)
      rcases exceptBind_error _ _ _ h with hv | ⟨descv, _, h⟩
      · obtain ⟨he, hfail⟩ := DataFetcher.validateString_error_inv _ _ _ _ hv
        exact Or.inr (Or.inr ⟨("description"), .notANonEmptyString, fields, rfl, he,
          by decide, hfail⟩)
      rcases exceptBind_error _ _ _ h with hv | ⟨imgv, _, h⟩
      · obtain ⟨he, hfail⟩ := DataFetcher.validateString_error_inv _ _ _ _ hv
        exact Or.inr (Or.inr ⟨("imageURL"), .notANonEmptyString, fields, rfl, he,
          by decide, hfail⟩)
      rcases exceptBind_error _ _ _ h with hv | ⟨catv, _, h⟩
      · obtain ⟨he, hfail⟩ := DataFetcher.validateCategory_error_inv _ _ _ _ hv
        exact Or.inr (Or.inr ⟨("category"), .notACategory, fields, rfl, he, rfl, hfail⟩)
      rcases exceptBind_error _ _ _ h with hv | ⟨locv, _, h⟩
      · obtain ⟨he, hfail⟩ := DataFetcher.validateString_error_inv _ _ _ _ hv
        exact Or.inr (Or.inr ⟨("location"), .notANonEmptyString, fields, rfl, he,
          by decide, hfail⟩)
      rcases exceptBind_error _ _ _ h with hv | ⟨causev, _, h⟩
      · obtain ⟨he, hfail⟩ := DataFetcher.validateString_error_inv _ _ _ _ hv
        exact Or.inr (Or.inr ⟨("cause"), .notANonEmptyString, fields, rfl, he,
          by decide, hfail⟩)
      exact Except.noConfusion h
  | null => exact Or.inl ⟨(Except.error.inj h).symm, rfl⟩
  | bool b => exact Or.inl ⟨(Except.error.inj h).symm, rfl⟩
  | num q => exact Or.inl ⟨(Except.error.inj h).symm, rfl⟩
  | str s => exact Or.inl ⟨(Except.error.inj h).symm, rfl⟩
  | arr xs => exact Or.inl ⟨(Except.error.inj h).symm, rfl⟩

theorem DataFetcher.validateEventsFrom_ok (elements : List JValue) (start : Nat)
    (es : List ExtinctionEvent) (h : DataFetcher.validateEventsFrom elements start = .ok es) :
    es.length = elements.length ∧
    (∀ e ∈ es, ∃ v j, v ∈ elements ∧ DataFetcher.validateEvent v j = .ok e) ∧
    (∀ v ∈ elements, ∃ j ev, DataFetcher.validateEvent v j = .ok ev) := by
  induction elements generalizing start es with
  | nil =>
    rw [DataFetcher.validateEventsFrom] at h
    have he := Except.ok.inj h
    subst he
    simp
  | cons v rest ih =>
    rw [DataFetcher.validateEventsFrom] at h
    obtain ⟨e, he, h⟩ := exceptBind_ok _ _ _ h
    obtain ⟨es2, hes2, h⟩ := exceptBind_ok _ _ _ h
    have hee := Except.ok.inj h
    subst hee
    obtain ⟨hlen, hmem, hall⟩ := ih (start + 1) es2 hes2
    refine ⟨by simp [hlen], ?_, ?_⟩
    · intro x hx
      rcases List.mem_cons.mp hx with hx | hx
      · subst hx
        exact ⟨v, start, List.mem_cons_self v rest, he⟩
      · obtain ⟨w, j, hw, hval⟩ := hmem x hx
        exact ⟨w, j, List.mem_cons_of_mem v hw, hval⟩
    · intro w hw
      rcases List.mem_cons.mp hw with hw | hw
      · subst hw
        exact ⟨start, e, he⟩
      · exact hall w hw

theorem DataFetcher.validateEventsFrom_error (elements : List JValue) (start : Nat)
    (err : DataFetcher.VError) (h : DataFetcher.validateEventsFrom elements start = .error err) :
    ∃ k v, elements[k]? = some v ∧ DataFetcher.validateEvent v (start + k) = .error err := by
  induction elements generalizing start with
  | nil =>
    rw [DataFetcher.validateEventsFrom] at h
    exact Except.noConfusion h
  | cons v rest ih =>
    rw [DataFetcher.validateEventsFrom] at h
    rcases exceptBind_error _ _ _ h with hv | ⟨e, _, h⟩
    · exact ⟨0, v, by simp, by simpa using hv⟩
    rcases exceptBind_error _ _ _ h with hrest | ⟨es2, _, h⟩
    · obtain ⟨k, w, hw, hval⟩ := ih (start + 1) hrest
      refine ⟨k + 1, w, by simpa using hw, ?_⟩
      rw [show start + (k + 1) = start + 1 + k by omega]
      exact hval
    · exact Except.noConfusion h

theorem DataFetcher.fieldMissing_false_of_kind (fields : List (String × JValue)) (f : String)
    (h : (UseExtinctionEvents.isNumberValue (jlookup fields f) ||
      UseExtinctionEvents.isStringValue (jlookup fields f)) = true) :
    DataFetcher.fieldMissing fields f = false := by
  rw [DataFetcher.fieldMissing]
  cases hjl : jlookup fields f with
  | none => rw [hjl] at h; simp [UseExtinctionEvents.isNumberValue, UseExtinctionEvents.isStringValue] at h
  | some w =>
    cases w <;> rw [hjl] at h <;>
      simp_all [UseExtinctionEvents.isNumberValue, UseExtinctionEvents.isStringValue]

theorem DataFetcher.validateNumber_ok_isNumber (fields : List (String × JValue)) (f : String)
    (i : Nat) (q : ℚ)
    (h : DataFetcher.validateNumber ((jlookup fields f).getD JValue.null) i f = .ok q) :
    UseExtinctionEvents.isNumberValue (jlookup fields f) = true := by
  have hv := DataFetcher.validateNumber_ok_inv _ _ _ _ h
  cases hjl : jlookup fields f with
  | none => rw [hjl] at hv; simp at hv
  | some w =>
    rw [hjl] at hv
    simp only [Option.getD_some] at hv
    subst hv
    rfl

theorem DataFetcher.validateString_ok_isStringField (fields : List (String × JValue)) (f : String)
    (i : Nat) (out : String)
    (h : DataFetcher.validateString ((jlookup fields f).getD JValue.null) i f = .ok out) :
    UseExtinctionEvents.isStringValue (jlookup fields f) = true := by
  obtain ⟨s, hv, _, _⟩ := DataFetcher.validateString_ok_inv _ _ _ _ h
  cases hjl : jlookup fields f with
  | none => rw [hjl] at hv; simp at hv
  | some w =>
    rw [hjl] at hv
    simp only [Option.getD_some] at hv
    subst hv
    rfl

theorem DataFetcher.validateEvent_ok_not_specBad (v : JValue) (i : Nat) (e : ExtinctionEvent)
    (h : DataFetcher.validateEvent v i = .ok e) : SpecModel.specBadElement v = false := by
  obtain ⟨fields, hv, hf, hid, hyear, htitle, hdesc, himg, hcat, hloc, hcause⟩ :=
    DataFetcher.validateEvent_ok_inv v i e h
  subst hv
  have hmiss : DataFetcher.requiredFields.any (fun f => DataFetcher.fieldMissing fields f) = false := by
    rw [Bool.eq_false_iff]
    intro hany
    obtain ⟨f, hfm, hmissf⟩ := List.any_eq_true.mp hany
    exact List.find?_eq_none.mp hf f hfm hmissf
  have h1 := DataFetcher.validateNumber_ok_isNumber fields ("id") i e.id hid
  have h2 := DataFetcher.validateNumber_ok_isNumber fields ("year") i e.year hyear
  have h3 := DataFetcher.validateString_ok_isStringField fields ("title") i e.title htitle
  have h4 := DataFetcher.validateString_ok_isStringField fields ("description") i e.description hdesc
  have h5 := DataFetcher.validateString_ok_isStringField fields ("imageURL") i e.imageURL himg
  have h6 := DataFetcher.validateString_ok_isStringField fields ("location") i e.location hloc
  have h7 := DataFetcher.validateString_ok_isStringField fields ("cause") i e.cause hcause
  obtain ⟨cs, -, -, h8⟩ := DataFetcher.validateCategory_ok_inv _ _ _ _ hcat
  simp [SpecModel.specBadElement, hmiss, h1, h2, h3, h4, h5, h6, h7, h8]

theorem UseExtinctionEvents.isValidEvent_not_specBad (v : JValue)
    (h : UseExtinctionEvents.isValidEvent v = true) : SpecModel.specBadElement v = false := by
  cases v with
  | obj fields =>
    rw [UseExtinctionEvents.isValidEvent] at h
    simp only [Bool.and_eq_true] at h
    obtain ⟨⟨⟨⟨⟨⟨⟨⟨h1, h2⟩, h3⟩, h4⟩, h5⟩, h6⟩, h7⟩, h8⟩, h9⟩ := h
    have hcatfail : SpecModel.categoryCheckFails ((jlookup fields ("category")).getD JValue.null) = false := by
      cases hjl : jlookup fields ("category") with
      | none => rw [hjl] at h9; simp at h9
      | some w =>
        rw [hjl] at h9
        cases w with
        | str s =>
          simp at h9
          simp only [Option.getD_some, SpecModel.categoryCheckFails]
          rcases h9 with (h9 | h9) | h9 <;> simp [h9]
        | null => simp at h9
        | bool b => simp at h9
        | num q => simp at h9
        | arr xs => simp at h9
        | obj fs => simp at h9
    have hmiss : DataFetcher.requiredFields.any (fun f => DataFetcher.fieldMissing fields f) = false := by
      have m1 := DataFetcher.fieldMissing_false_of_kind fields ("id") (by simp [h1])
      have m2 := DataFetcher.fieldMissing_false_of_kind fields ("year") (by simp [h2])
      have m3 := DataFetcher.fieldMissing_false_of_kind fields ("title") (by simp [h3])
      have m4 := DataFetcher.fieldMissing_false_of_kind fields ("description") (by simp [h4])
      have m5 := DataFetcher.fieldMissing_false_of_kind fields ("imageURL") (by simp [h5])
      have m6 := DataFetcher.fieldMissing_false_of_kind fields ("category") (by simp [h6])
      have m7 := DataFetcher.fieldMissing_false_of_kind fields ("location") (by simp [h7])
      have m8 := DataFetcher.fieldMissing_false_of_kind fields ("cause") (by simp [h8])
      simp [DataFetcher.requiredFields, m1, m2, m3, m4, m5, m6, m7, m8]
    simp [SpecModel.specBadElement, hmiss, h1, h2, h3, h4, h5, h7, h8, hcatfail]
  | null => simp [UseExtinctionEvents.isValidEvent] at h
  | bool b => simp [UseExtinctionEvents.isValidEvent] at h
  | num q => simp [UseExtinctionEvents.isValidEvent] at h
  | str s => simp [UseExtinctionEvents.isValidEvent] at h
  | arr xs => simp [UseExtinctionEvents.isValidEvent] at h

theorem UseExtinctionEvents.validateEventsFrom_all_valid (elements : List JValue) (start : Nat)
    (out : List JValue) (h : UseExtinctionEvents.validateEventsFrom elements start = .ok out) :
    ∀ v ∈ elements, UseExtinctionEvents.isValidEvent v = true := by
  induction elements generalizing start out with
  | nil => simp
  | cons v rest ih =>
    rw [UseExtinctionEvents.validateEventsFrom] at h
    by_cases hv : UseExtinctionEvents.isValidEvent v
    · rw [if_pos hv] at h
      obtain ⟨out2, hout2, h⟩ := exceptBind_ok _ _ _ h
      intro w hw
      rcases List.mem_cons.mp hw with hw | hw
      · subst hw
        exact hv
      · exact ih (start + 1) out2 hout2 w hw
    · rw [if_neg hv] at h
      exact Except.noConfusion h

theorem DataFetcher.validateResponse_ok_not_malformed (data : JValue)
    (es : List ExtinctionEvent) (h : DataFetcher.validateResponse data = .ok es) :
    SpecModel.specMalformedResponse data = false := by
  cases data with
  | obj fields =>
    rw [DataFetcher.validateResponse] at h
    split at h
    · rename_i elements heq
      obtain ⟨-, -, hall⟩ := DataFetcher.validateEventsFrom_ok elements 0 es h
      rw [SpecModel.specMalformedResponse]
      simp only [heq]
      rw [Bool.eq_false_iff]
      intro hany
      obtain ⟨v, hvmem, hbad⟩ := List.any_eq_true.mp hany
      obtain ⟨j, ev, hok⟩ := hall v hvmem
      have hfalse := DataFetcher.validateEvent_ok_not_specBad v j ev hok
      rw [hfalse] at hbad
      exact Bool.noConfusion hbad
    · exact Except.noConfusion h
  | null => exact Except.noConfusion h
  | bool b => exact Except.noConfusion h
  | num q => exact Except.noConfusion h
  | str s => exact Except.noConfusion h
  | arr xs => exact Except.noConfusion h

theorem UseExtinctionEvents.validateEvents_ok_not_malformed (events : JValue)
    (out : List JValue) (h : UseExtinctionEvents.validateEvents events = .ok out) :
    SpecModel.specMalformedEventsValue events = false := by
  cases events with
  | arr elements =>
    rw [UseExtinctionEvents.validateEvents] at h
    have hall := UseExtinctionEvents.validateEventsFrom_all_valid elements 0 out h
    rw [SpecModel.specMalformedEventsValue, Bool.eq_false_iff]
    intro hany
    obtain ⟨v, hvmem, hbad⟩ := List.any_eq_true.mp hany
    have hfalse := UseExtinctionEvents.isValidEvent_not_specBad v (hall v hvmem)
    rw [hfalse] at hbad
    exact Bool.noConfusion hbad
  | null => exact Except.noConfusion h
  | bool b => exact Except.noConfusion h
  | num q => exact Except.noConfusion h
  | str s => exact Except.noConfusion h
  | obj fs => exact Except.noConfusion h

theorem DataFetcher.validateResponse_error_diag (data : JValue) (err : DataFetcher.VError)
    (h : DataFetcher.validateResponse data = .error err) :
    SpecModel.errorDiagnosisOK data err := by
  cases data with
  | obj fields =>
    rw [DataFetcher.validateResponse] at h
    split at h
    · rename_i elements heq
      obtain ⟨k, v, hkv, hval⟩ := DataFetcher.validateEventsFrom_error elements 0 err h
      rw [show (0 : Nat) + k = k by omega] at hval
      have harr : SpecModel.eventsArrayOf (JValue.obj fields) = some elements := by
        rw [SpecModel.eventsArrayOf]
        simp only [heq]
      rcases DataFetcher.validateEvent_error_diag v k err hval with
        ⟨herr, hobj⟩ | ⟨f, flds, hv, herr, hmem, hmiss⟩ | ⟨f, kk, flds, hv, herr, hfail⟩
      · subst herr
        exact ⟨elements, v, harr, hkv, hobj⟩
      · subst herr
        subst hv
        exact ⟨elements, flds, harr, hkv, hmem, hmiss⟩
      · subst herr
        subst hv
        exact ⟨elements, flds, harr, hkv, hfail⟩
    · rename_i hne
      have herr : DataFetcher.VError.missingEventsArray = err := Except.error.inj h
      subst herr
      refine ⟨rfl, ?_⟩
      rw [SpecModel.eventsArrayOf]
      cases hjl : jlookup fields ("events") with
      | none => rfl
      | some w =>
        cases w with
        | arr elements => exact (hne elements hjl).elim
        | null => rfl
        | bool b => rfl
        | num q => rfl
        | str s => rfl
        | obj fs => rfl
  | null =>
    have herr : DataFetcher.VError.responseNotObject = err := Except.error.inj h
    subst herr
    rfl
  | bool b =>
    have herr : DataFetcher.VError.responseNotObject = err := Except.error.inj h
    subst herr
    rfl
  | num q =>
    have herr : DataFetcher.VError.responseNotObject = err := Except.error.inj h
    subst herr
    rfl
  | str s =>
    have herr : DataFetcher.VError.responseNotObject = err := Except.error.inj h
    subst herr
    rfl
  | arr xs =>
    have herr : DataFetcher.VError.responseNotObject = err := Except.error.inj h
    subst herr
    rfl

theorem DataFetcher.validateResponse_ok_length (data : JValue) (elements : List JValue)
    (es : List ExtinctionEvent) (harr : SpecModel.eventsArrayOf data = some elements)
    (h : DataFetcher.validateResponse data = .ok es) : es.length = elements.length := by
  cases data with
  | obj fields =>
    rw [DataFetcher.validateResponse] at h
    split at h
    · rename_i elements2 heq
      rw [SpecModel.eventsArrayOf] at harr
      simp only [heq] at harr
      have he2 : elements2 = elements := Option.some.inj harr
      subst he2
      exact (DataFetcher.validateEventsFrom_ok elements2 0 es h).1
    · exact Except.noConfusion h
  | null => exact Except.noConfusion h
  | bool b => exact Except.noConfusion h
  | num q => exact Except.noConfusion h
  | str s => exact Except.noConfusion h
  | arr xs => exact Except.noConfusion h

theorem DataFetcher.validateResponse_ok_mem (data : JValue) (es : List ExtinctionEvent)
    (h : DataFetcher.validateResponse data = .ok es) :
    ∀ e ∈ es, ∃ v j, DataFetcher.validateEvent v j = .ok e := by
  cases data with
  | obj fields =>
    rw [DataFetcher.validateResponse] at h
    split at h
    · rename_i elements heq
      intro e he
      obtain ⟨v, j, _, hok⟩ := (DataFetcher.validateEventsFrom_ok elements 0 es h).2.1 e he
      exact ⟨v, j, hok⟩
    · exact Except.noConfusion h
  | null => exact Except.noConfusion h
  | bool b => exact Except.noConfusion h
  | num q => exact Except.noConfusion h
  | str s => exact Except.noConfusion h
  | arr xs => exact Except.noConfusion h

/-- C2 counterexample.  The claim requires the error to identify the
offending element's field name, but the React hook's `validateEvents`
produces the very same error for an element missing `title` as for one
missing `cause` — the error carries only the index, so the field name
cannot be identified from it. -/
theorem hook_error_lacks_field_name :
    UseExtinctionEvents.validateEvents eventsMissingTitle =
      .error ("Invalid event at index 0") ∧
    UseExtinctionEvents.validateEvents eventsMissingCause =
      .error ("Invalid event at index 0") ∧
    UseExtinctionEvents.validateEvents eventsMissingTitle =
      UseExtinctionEvents.validateEvents eventsMissingCause :=
  ⟨rfl, rfl, rfl⟩

/-- C2 amended.  For every malformed payload (top level not an object with
an array field `events`, an element missing a required field or having one
of the wrong primitive kind, or a category outside the enumeration) the
load fails as a whole: `DataFetcher.validateResponse` returns no event list
and its error correctly identifies the offending element's index and — for
field-level failures — the offending field name and check; on success it
returns one validated event per payload element (no partial list).  The
React hook's `validateEvents` also fails as a whole on every malformed
events array, though its error carries only the index. -/
theorem load_fails_whole_on_malformed :
    (∀ data : JValue, SpecModel.specMalformedResponse data = true →
      (DataFetcher.validateResponse data).isOk = false) ∧
    (∀ (data : JValue) (err : DataFetcher.VError),
      DataFetcher.validateResponse data = .error err → SpecModel.errorDiagnosisOK data err) ∧
    (∀ (data : JValue) (elements : List JValue) (es : List ExtinctionEvent),
      SpecModel.eventsArrayOf data = some elements →
      DataFetcher.validateResponse data = .ok es → es.length = elements.length) ∧
    (∀ events : JValue, SpecModel.specMalformedEventsValue events = true →
      (UseExtinctionEvents.validateEvents events).isOk = false) := by
  refine ⟨?_, DataFetcher.validateResponse_error_diag, DataFetcher.validateResponse_ok_length, ?_⟩
  · intro data hmal
    cases hres : DataFetcher.validateResponse data with
    | error e => rfl
    | ok es =>
      have hnm := DataFetcher.validateResponse_ok_not_malformed data es hres
      rw [hnm] at hmal
      exact Bool.noConfusion hmal
  · intro events hmal
    cases hres : UseExtinctionEvents.validateEvents events with
    | error e => rfl
    | ok out =>
      have hnm := UseExtinctionEvents.validateEvents_ok_not_malformed events out hres
      rw [hnm] at hmal
      exact Bool.noConfusion hmal

/-- Witness for C2's amended statement: the out-of-enumeration category
`Fish` is rejected by the `DataFetcher` with an error naming index 0 and
field `category`, and the element missing `title` is rejected by the
hook. -/
theorem load_fails_whole_on_malformed_witness :
    (DataFetcher.validateResponse fishPayload).isOk = false ∧
    SpecModel.errorDiagnosisOK fishPayload
      (DataFetcher.VError.badField 0 ("category") DataFetcher.FieldFailure.notACategory) ∧
    (UseExtinctionEvents.validateEvents eventsMissingTitle).isOk = false := by
  refine ⟨?_, ?_, ?_⟩
  · exact load_fails_whole_on_malformed.1 fishPayload (by rfl)
  · exact load_fails_whole_on_malformed.2.1 fishPayload _ (by rfl)
  · exact load_fails_whole_on_malformed.2.2.2 eventsMissingTitle (by rfl)

/-- C3 counterexample.  `load()` succeeds on a payload whose two events both
carry the non-integer id 3/2 and whose first event has year 1/2: a
successful load guarantees neither that ids are integers, nor that they are
unique, nor that years are integers. -/
theorem load_accepts_nonInteger_duplicate_ids :
    DataFetcher.validateResponse nonIntegerPayload = .ok
      [ mkEvent threeHalves oneHalf ("Dodo Bird") AnimalCategory.Birds,
        mkEvent threeHalves 1936 ("Tasmanian Tiger") AnimalCategory.Mammals ] ∧
    (∃ es, DataFetcher.fetchEvents nonIntegerPayload = .ok es ∧
      (∃ e ∈ es, e.id.den ≠ 1) ∧
      (∃ e1 ∈ es, ∃ e2 ∈ es, e1 ≠ e2 ∧ e1.id = e2.id) ∧
      (∃ e ∈ es, e.year.den ≠ 1)) := by
  constructor
  · rfl
  · refine ⟨DataFetcher.sortEventsByYear
      [ mkEvent threeHalves oneHalf ("Dodo Bird") AnimalCategory.Birds,
        mkEvent threeHalves 1936 ("Tasmanian Tiger") AnimalCategory.Mammals ], rfl, ?_, ?_, ?_⟩
    · refine ⟨mkEvent threeHalves oneHalf ("Dodo Bird") AnimalCategory.Birds, ?_, by decide⟩
      rw [DataFetcher.sortEventsByYear]
      exact List.mem_mergeSort.mpr (by decide)
    · refine ⟨mkEvent threeHalves oneHalf ("Dodo Bird") AnimalCategory.Birds, ?_,
        mkEvent threeHalves 1936 ("Tasmanian Tiger") AnimalCategory.Mammals, ?_, by decide, by decide⟩
      · rw [DataFetcher.sortEventsByYear]
        exact List.mem_mergeSort.mpr (by decide)
      · rw [DataFetcher.sortEventsByYear]
        exact List.mem_mergeSort.mpr (by decide)
    · refine ⟨mkEvent threeHalves oneHalf ("Dodo Bird") AnimalCategory.Birds, ?_, by decide⟩
      rw [DataFetcher.sortEventsByYear]
      exact List.mem_mergeSort.mpr (by decide)

/-- C3 amended.  Every event of a successful load has its four descriptive
text fields stored trimmed and non-empty: the validator returns
`value.trim()` and rejects strings that trim to empty.  (Integrality and
uniqueness of `id`, and integrality of `year`, are not enforced — see the
counterexample.) -/
theorem load_strings_trimmed_nonempty (data : JValue) (es : List ExtinctionEvent)
    (h : DataFetcher.fetchEvents data = .ok es) :
    ∀ e ∈ es,
      (jsTrim e.title = e.title ∧ e.title ≠ "") ∧
      (jsTrim e.description = e.description ∧ e.description ≠ "") ∧
      (jsTrim e.location = e.location ∧ e.location ≠ "") ∧
      (jsTrim e.cause = e.cause ∧ e.cause ≠ "") := by
  rw [DataFetcher.fetchEvents] at h
  obtain ⟨raw, hraw, h⟩ := exceptBind_ok _ _ _ h
  have hes : DataFetcher.sortEventsByYear raw = es := Except.ok.inj h
  subst hes
  intro e he
  rw [DataFetcher.sortEventsByYear] at he
  have hmem : e ∈ raw := List.mem_mergeSort.mp he
  obtain ⟨v, j, hok⟩ := DataFetcher.validateResponse_ok_mem data raw hraw e hmem
  obtain ⟨fields, -, -, -, -, htitle, hdesc, -, -, hloc, hcause⟩ :=
    DataFetcher.validateEvent_ok_inv v j e hok
  exact ⟨DataFetcher.validateString_ok_trimmed _ _ _ _ htitle,
    DataFetcher.validateString_ok_trimmed _ _ _ _ hdesc,
    DataFetcher.validateString_ok_trimmed _ _ _ _ hloc,
    DataFetcher.validateString_ok_trimmed _ _ _ _ hcause⟩

/-- Witness for C3's amended statement at the Dodo Bird event of the
concrete sample payload. -/
theorem load_strings_trimmed_nonempty_witness :
    (jsTrim (mkEvent 1 1662 ("Dodo Bird") AnimalCategory.Birds).title =
        (mkEvent 1 1662 ("Dodo Bird") AnimalCategory.Birds).title ∧
      (mkEvent 1 1662 ("Dodo Bird") AnimalCategory.Birds).title ≠ "") ∧
    (jsTrim (mkEvent 1 1662 ("Dodo Bird") AnimalCategory.Birds).description =
        (mkEvent 1 1662 ("Dodo Bird") AnimalCategory.Birds).description ∧
      (mkEvent 1 1662 ("Dodo Bird") AnimalCategory.Birds).description ≠ "") ∧
    (jsTrim (mkEvent 1 1662 ("Dodo Bird") AnimalCategory.Birds).location =
        (mkEvent 1 1662 ("Dodo Bird") AnimalCategory.Birds).location ∧
      (mkEvent 1 1662 ("Dodo Bird") AnimalCategory.Birds).location ≠ "") ∧
    (jsTrim (mkEvent 1 1662 ("Dodo Bird") AnimalCategory.Birds).cause =
        (mkEvent 1 1662 ("Dodo Bird") AnimalCategory.Birds).cause ∧
      (mkEvent 1 1662 ("Dodo Bird") AnimalCategory.Birds).cause ≠ "") := by
  refine load_strings_trimmed_nonempty samplePayload
    (DataFetcher.sortEventsByYear sampleValidated) (by rfl)
    (mkEvent 1 1662 ("Dodo Bird") AnimalCategory.Birds) ?_
  rw [DataFetcher.sortEventsByYear]
  exact List.mem_mergeSort.mpr (by decide)
